import Mathlib

/-!
Shallow embedding of the FloppyIO shared-buffer protocol
(src/floppyIO.cpp, src/floppyIO.h).

The backing floppy image is modelled as a total function from byte
offsets to byte values.  The `FloppyIO` object state is split into an
immutable `Config` (the constructor flags and the fixed floppy size)
and a mutable `State` (the store contents, the pending error code and
the stream good-flag).  Offsets and region sizes are computed exactly
as the constructor does (lines 136-179 of floppyIO.cpp): the control
byte offsets are derived from the pre-binary-adjustment sizes, after
which binary mode shrinks both regions by 3 bytes.

The bit-packed control byte (struct fpio_ctlbyte of floppyIO.h,
accessed through the fpio_ctlbyte_io union) is modelled by explicit
base-2 encode/decode: bit0 bDataPresent, bit1 bEndOfData,
bit2 length-prefix flag (bLengthPrefix in the source, named
bLengthPfx here), bit3 bAborted, bits 4-7 usID.

Error messages (the errorStr chaining of setError) are not modelled;
only the numeric error code is, which is what the claims are about.
-/

namespace Floppy

/-- The backing store: a byte value for every offset. -/
abbrev Store := Nat → Nat

/-- Overwrite the store with `data` starting at offset `ofs`
(the effect of seekp(ofs) followed by write(data, data.length)). -/
def writeBytes (s : Store) (ofs : Nat) (data : List Nat) : Store :=
  fun i => if ofs ≤ i ∧ i < ofs + data.length then data.getD (i - ofs) 0 else s i

/-- Read `n` consecutive bytes starting at offset `ofs`
(the effect of seekg(ofs) followed by read(buf, n)). -/
def readBytes (s : Store) (ofs : Nat) : Nat → List Nat
  | 0 => []
  | n + 1 => s ofs :: readBytes s (ofs + 1) n

/-- The bit fields of struct fpio_ctlbyte (floppyIO.h lines 106-112).
The source field bLengthPrefix is named bLengthPfx here. -/
structure fpio_ctlbyte where
  bDataPresent : Nat
  bEndOfData   : Nat
  bLengthPfx   : Nat
  bAborted     : Nat
  usID         : Nat
deriving DecidableEq, Repr

/-- Pack the control fields into one byte, as the fpio_ctlbyte_io union
reads them back out through its `byte` member (bit0 = bDataPresent,
bit1 = bEndOfData, bit2 = length prefix, bit3 = bAborted,
bits 4-7 = usID). -/
def ctlToByte (c : fpio_ctlbyte) : Nat :=
  c.bDataPresent % 2 + 2 * (c.bEndOfData % 2) + 4 * (c.bLengthPfx % 2) +
    8 * (c.bAborted % 2) + 16 * (c.usID % 16)

/-- Unpack one byte into the control fields (the other direction of the
fpio_ctlbyte_io union). -/
def byteToCtl (b : Nat) : fpio_ctlbyte where
  bDataPresent := b % 2
  bEndOfData   := b / 2 % 2
  bLengthPfx   := b / 4 % 2
  bAborted     := b / 8 % 2
  usID         := b / 16 % 16

/-- DEFAULT_FIO_FLOPPY_SIZE of floppyIO.h (line 120). -/
def DEFAULT_FIO_FLOPPY_SIZE : Nat := 28672

/-- DEFAULT_FIO_SYNC_TIMEOUT of floppyIO.h (line 126). -/
def DEFAULT_FIO_SYNC_TIMEOUT : Nat := 5

/-- The immutable part of a FloppyIO object: the constructor flags that
survive construction (FPIO_CLIENT, FPIO_BINARY, FPIO_SYNCHRONIZED) plus
the fixed floppy size and sync timeout fields. -/
structure Config where
  szFloppy     : Nat
  client       : Bool
  binary       : Bool
  synchronized : Bool
  syncTimeout  : Nat
deriving DecidableEq, Repr

/-- The region geometry fields of a FloppyIO object. -/
structure Layout where
  szOutput       : Nat
  szInput        : Nat
  ofsOutput      : Nat
  ofsInput       : Nat
  ofsCtrlByteOut : Nat
  ofsCtrlByteIn  : Nat
deriving DecidableEq, Repr

/-- The layout computation of the FloppyIO constructor
(floppyIO.cpp lines 136-179): both region sizes start as
szFloppy/2 - 1; the client flag mirrors the offsets; the control byte
offsets are fixed before binary mode shrinks both sizes by 3. -/
def mkLayout (cfg : Config) : Layout :=
  let szBase := cfg.szFloppy / 2 - 1
  let l : Layout :=
    if cfg.client then
      { szOutput := szBase, szInput := szBase,
        ofsOutput := szBase, ofsInput := 0,
        ofsCtrlByteIn := szBase + szBase,
        ofsCtrlByteOut := szBase + szBase + 1 }
    else
      { szOutput := szBase, szInput := szBase,
        ofsOutput := 0, ofsInput := szBase,
        ofsCtrlByteOut := szBase + szBase,
        ofsCtrlByteIn := szBase + szBase + 1 }
  if cfg.binary then
    { l with szInput := l.szInput - 3, szOutput := l.szOutput - 3 }
  else l

/-- The mutable part of a FloppyIO object: the store contents, the
pending error code and the fstream good state. -/
structure State where
  store : Store
  error : Int
  good  : Bool

/-- FloppyIO::ready (floppyIO.cpp lines 618-621): no pending error and
the stream in good state. -/
def ready (st : State) : Bool :=
  st.error == 0 && st.good

/-- FloppyIO::setError (floppyIO.cpp lines 586-603), error code part
only (the message chaining is not modelled). -/
def setError (st : State) (code : Int) : State :=
  { st with error := code }

/-- FloppyIO::clear (floppyIO.cpp lines 608-612): clears the error code
and the stream state flags. -/
def clear (st : State) : State :=
  { st with error := 0, good := true }

/-- FloppyIO::reset (floppyIO.cpp lines 201-214): requires the ready
state, then writes szFloppy+1 zero bytes starting at offset 0. -/
def reset (cfg : Config) (st : State) : State :=
  if ready st = false then setError st (-4)
  else { st with store := writeBytes st.store 0 (List.replicate (cfg.szFloppy + 1) 0) }

/-- The 4-byte little-endian representation of the non-negative data
length, as the fpio_datalen_io union exposes an int through its
`bytes` member on the x86 targets of this code. -/
def encLen4 (n : Nat) : List Nat :=
  [n % 256, n / 256 % 256, n / 65536 % 256, n / 16777216 % 256]

/-- Decode 4 little-endian bytes as a signed 32-bit int (the reading
direction of the fpio_datalen_io union): two's complement. -/
def decodeInt4 (bs : List Nat) : Int :=
  let u := bs.getD 0 0 % 256 + 256 * (bs.getD 1 0 % 256) +
    65536 * (bs.getD 2 0 % 256) + 16777216 * (bs.getD 3 0 % 256)
  if u < 2147483648 then (u : Int) else (u : Int) - 4294967296

/-- The truncation of FloppyIO::send (floppyIO.cpp lines 265-267):
payloads longer than szOutput-1 are cut to szOutput-1, in both framing
modes. -/
def sendTruncLen (szOutput szData : Nat) : Nat :=
  if szData > szOutput - 1 then szOutput - 1 else szData

/-- Closed-world outcome of FloppyIO::waitForSync when no counterpart
process mutates the store during the wait: the polled byte never
changes, so the wait succeeds immediately iff the byte already
matches, fails with -1 on a bad stream, and otherwise times out
with -2 (assuming a non-zero timeout; the claims below only exercise
unsynchronized configurations).  The poll loop itself is modelled
faithfully over an observation trace by `waitForSync` further down. -/
def waitForSyncNow (st : State) (ofs : Nat) (state mask : Nat) : Int :=
  if st.good = false then -1
  else if (st.store ofs).land mask = state then 0
  else -2

/-- Result of a send call: the returned int and the successor state. -/
structure SendResult where
  ret : Int
  st  : State

/-- FloppyIO::send(char *, int, fpio_ctlbyte *) (floppyIO.cpp lines
256-314).  `data` is the caller's buffer of length szData.  Steps, in
source order: ready check; bytesSent is recorded before the
truncation; good check; the control byte starts as the raw byte 1 or
as the caller's flags with bDataPresent forced to 1; in binary mode
the length-prefix flag is set and the 4-byte prefix is written at
ofsOutput with the payload right after it, otherwise the payload goes
at ofsOutput; the control byte is written at ofsCtrlByteOut; in
synchronized mode the code then waits for that byte to clear. -/
def send (cfg : Config) (st : State) (data : List Nat)
    (ctrl : Option fpio_ctlbyte) : SendResult :=
  if ready st = false then { ret := -4, st := setError st (-4) }
  else
    let L := mkLayout cfg
    let bytesSent : Int := data.length
    let szData := sendTruncLen L.szOutput data.length
    if st.good = false then { ret := -1, st := setError st (-1) }
    else
      let cB0 : fpio_ctlbyte :=
        match ctrl with
        | none => byteToCtl 1
        | some c => { c with bDataPresent := 1 }
      let cB := if cfg.binary then { cB0 with bLengthPfx := 1 } else cB0
      let s1 := if cfg.binary then writeBytes st.store L.ofsOutput (encLen4 szData)
                else st.store
      let pOfs := if cfg.binary then L.ofsOutput + 4 else L.ofsOutput
      let s2 := writeBytes s1 pOfs (data.take szData)
      let s3 := writeBytes s2 L.ofsCtrlByteOut [ctlToByte cB]
      let st2 := { st with store := s3 }
      if cfg.synchronized then
        let iState := waitForSyncNow st2 L.ofsCtrlByteOut 0 1
        if iState < 0 then { ret := iState, st := setError st2 iState }
        else { ret := bytesSent, st := st2 }
      else { ret := bytesSent, st := st2 }

/-- The read length for the payload in binary length-prefixed mode
(floppyIO.cpp lines 390-396): the decoded signed int, clamped from
above to szInput, with no lower bound. -/
def recvReadLen (szInput : Nat) (pfx : List Nat) : Int :=
  let n := decodeInt4 pfx
  if n > (szInput : Int) then (szInput : Int) else n

/-- Model of istream read with a signed count: a negative or zero
count extracts nothing. -/
def readSigned (s : Store) (ofs : Nat) (n : Int) : List Nat :=
  if n ≤ 0 then [] else readBytes s ofs n.toNat

/-- C strlen over the received buffer: index of the first zero byte,
or the whole length when none occurs (the source then overruns the
buffer; the claims below keep a zero in range). -/
def cstrlen : List Nat → Nat
  | [] => 0
  | b :: rest => if b = 0 then 0 else cstrlen rest + 1

/-- Result of a receive call: the returned int, the bytes extracted
into the caller buffer, the flags copied out through the ctrlByte
pointer, and the successor state. -/
structure RecvResult where
  ret   : Int
  buf   : List Nat
  flags : fpio_ctlbyte
  st    : State

/-- FloppyIO::receive(char *, int, fpio_ctlbyte *) (floppyIO.cpp lines
357-415).  `szData` is the caller buffer size.  Steps, in source
order: ready check; in synchronized mode wait for the inbound control
byte to show bit0 = 1; good check; read and decode the control byte at
ofsCtrlByteIn, copy it out to the caller, then clear bDataPresent in
the local copy; in binary mode with the length-prefix flag set read
the 4-byte prefix at ofsInput and take the decoded length clamped from
above to szInput, the payload following at ofsInput+4, otherwise read
szData bytes at ofsInput; outside the binary-with-prefix case the
effective length is recomputed by strlen; finally rewrite the control
byte (bDataPresent cleared, every other field as received) at
ofsCtrlByteIn. -/
def receive (cfg : Config) (st : State) (szData : Nat) : RecvResult :=
  if ready st = false then
    { ret := -4, buf := [], flags := byteToCtl 0, st := setError st (-4) }
  else
    let L := mkLayout cfg
    let iState := if cfg.synchronized then waitForSyncNow st L.ofsCtrlByteIn 1 1 else 0
    if iState < 0 then
      { ret := iState, buf := [], flags := byteToCtl 0, st := setError st iState }
    else if st.good = false then
      { ret := -1, buf := [], flags := byteToCtl 0, st := setError st (-1) }
    else
      let cByte := st.store L.ofsCtrlByteIn
      let flagsOut := byteToCtl cByte
      let cB := { flagsOut with bDataPresent := 0 }
      let usePfx := cfg.binary ∧ flagsOut.bLengthPfx = 1
      let dataLength : Int :=
        if usePfx then recvReadLen L.szInput (readBytes st.store L.ofsInput 4)
        else (szData : Int)
      let pOfs := if usePfx then L.ofsInput + 4 else L.ofsInput
      let buf := readSigned st.store pOfs dataLength
      let dataLength2 : Int := if usePfx then dataLength else (cstrlen buf : Int)
      let s2 := writeBytes st.store L.ofsCtrlByteIn [ctlToByte cB]
      { ret := dataLength2, buf := buf, flags := flagsOut,
        st := { st with store := s2 } }

/-- FloppyIO::receive(string *, fpio_ctlbyte *) (floppyIO.cpp lines
336-346): receives into a buffer of size szInput, then assigns the
first bLen received characters to the string. -/
def receiveString (cfg : Config) (st : State) : Int × List Nat × State :=
  let L := mkLayout cfg
  let r := receive cfg st L.szInput
  if r.ret < 0 then (r.ret, [], r.st)
  else (r.ret, r.buf.take r.ret.toNat, r.st)

/-- The sequence of (payload, control flags) pairs that
FloppyIO::send(istream *) passes to the single-frame send
(floppyIO.cpp lines 487-537), for a source that never fails.  `r` is
the per-iteration read request szOutput-1 (line 507).  While at least
`r` bytes remain, the read fills the frame completely and eof stays
unset, so the frame carries bEndOfData = 0; the first short (or empty)
read raises eof, the frame carries bEndOfData = 1, and the loop exits
because the stream is no longer good. -/
def sendStreamFrames (r : Nat) (src : List Nat) : List (List Nat × fpio_ctlbyte) :=
  if _h : 0 < r ∧ r ≤ src.length then
    (src.take r, byteToCtl 0) :: sendStreamFrames r (src.drop r)
  else
    [(src, { byteToCtl 0 with bEndOfData := 1 })]
termination_by src.length
decreasing_by
  simp only [List.length_drop]
  omega

/-- The frames emitted by FloppyIO::send(istream *) on the given
channel configuration: chunks of szOutput-1 bytes. -/
def sendStream (cfg : Config) (src : List Nat) : List (List Nat × fpio_ctlbyte) :=
  sendStreamFrames ((mkLayout cfg).szOutput - 1) src

/-- FloppyIO::waitForSync (floppyIO.cpp lines 550-576) over an
observation trace.  Each trace entry is (clock value at the loop head,
stream good flag, byte read at the offset).  `tExpired` is the
deadline time(NULL)+timeout computed on entry.  The loop keeps going
while timeout is 0 or the clock has not passed the deadline; inside,
a bad stream returns -1, a byte matching (byte AND mask) == state
returns 0, anything else polls again; once the clock exceeds the
deadline the function returns -2.  `none` means the trace ended with
the loop still polling. -/
def waitForSync (tExpired : Nat) (timeout : Nat) (state mask : Nat) :
    List (Nat × Bool × Nat) → Option Int
  | [] => none
  | (t, g, b) :: rest =>
    if timeout = 0 ∨ t ≤ tExpired then
      if g = false then some (-1)
      else if b.land mask = state then some 0
      else waitForSync tExpired timeout state mask rest
    else some (-2)

/-- The hypervisor-role configuration with the default floppy size. -/
def hypCfg (bin : Bool) : Config :=
  { szFloppy := DEFAULT_FIO_FLOPPY_SIZE, client := false, binary := bin,
    synchronized := false, syncTimeout := DEFAULT_FIO_SYNC_TIMEOUT }

/-- The client-role configuration with the default floppy size. -/
def cliCfg (bin : Bool) : Config :=
  { szFloppy := DEFAULT_FIO_FLOPPY_SIZE, client := true, binary := bin,
    synchronized := false, syncTimeout := DEFAULT_FIO_SYNC_TIMEOUT }

/-- A freshly initialized channel state: the store zeroed (the effect
of reset at construction), no error, stream good. -/
def freshState : State :=
  { store := fun _ => 0, error := 0, good := true }

/-- One hypervisor send followed by one client receive on the same
backing store: the loopback round trip of the claims.  Returns the
receive return value and the string contents handed to the caller. -/
def roundTrip (bin : Bool) (P : List Nat) : Int × List Nat :=
  let st1 := (send (hypCfg bin) freshState P none).st
  let r := receiveString (cliCfg bin) st1
  (r.1, r.2.1)

/-- The store produced by an unsynchronized send with a null ctrlByte
argument from a ready state, spelled out: the (binary-mode) length
prefix, the truncated payload, and the control byte, written in the
order the source writes them. -/
def sendStoreEffect (cfg : Config) (s : Store) (data : List Nat) : Store :=
  let L := mkLayout cfg
  let szData := sendTruncLen L.szOutput data.length
  let s1 := if cfg.binary then writeBytes s L.ofsOutput (encLen4 szData) else s
  let pOfs := if cfg.binary then L.ofsOutput + 4 else L.ofsOutput
  let s2 := writeBytes s1 pOfs (data.take szData)
  writeBytes s2 L.ofsCtrlByteOut
    [ctlToByte (if cfg.binary then { byteToCtl 1 with bLengthPfx := 1 } else byteToCtl 1)]

/-- The control-byte writeback a receive performs at ofsCtrlByteIn:
the stored byte with bDataPresent cleared and every other field kept. -/
def recvCtlWriteback (s : Store) (ofs : Nat) : Store :=
  writeBytes s ofs [ctlToByte { byteToCtl (s ofs) with bDataPresent := 0 }]

/-- A concrete ready state whose store holds 5 everywhere except the
value 9 at offset 28673 (just past the szFloppy+1 bytes reset
rewrites). -/
def stDirty : State :=
  ⟨fun i => if i = 28673 then 9 else 5, 0, true⟩

/-- A ready client-mode state whose inbound control byte (offset
28670) is 5 (bDataPresent and length-prefix set) and whose 4 prefix
bytes are 255 255 255 255 (the signed value -1). -/
def stNegPfx : State :=
  ⟨fun i => if i = 28670 then 5 else if i ≤ 3 then 255 else 0, 0, true⟩

/-- A ready client-mode state whose inbound control byte is 5 and
whose 4 prefix bytes are 255 255 255 127 (the value 2147483647). -/
def stBigPfx : State :=
  ⟨fun i => if i = 28670 then 5 else if i = 3 then 127 else if i ≤ 2 then 255 else 0, 0, true⟩

/-- A ready Text-mode state with a leftover nonzero byte at offset 2,
right after where a 2-byte payload will end. -/
def stLeftover : State :=
  ⟨fun i => if i = 2 then 1 else 0, 0, true⟩

/-- A ready client-mode state whose inbound control byte (offset
28670) is 3: bDataPresent and bEndOfData both set by the sender. -/
def stCtl3 : State :=
  ⟨fun i => if i = 28670 then 3 else 0, 0, true⟩

/-! ### Helper lemmas about the store primitives -/

theorem writeBytes_out (s : Store) (ofs : Nat) (data : List Nat) (i : Nat)
    (h : i < ofs ∨ ofs + data.length ≤ i) : writeBytes s ofs data i = s i := by
  simp only [writeBytes]
  rw [if_neg (by omega)]

theorem writeBytes_in (s : Store) (ofs : Nat) (data : List Nat) (i : Nat)
    (h1 : ofs ≤ i) (h2 : i < ofs + data.length) :
    writeBytes s ofs data i = data.getD (i - ofs) 0 := by
  simp only [writeBytes]
  rw [if_pos ⟨h1, h2⟩]

theorem readBytes_length (s : Store) (ofs n : Nat) :
    (readBytes s ofs n).length = n := by
  induction n generalizing ofs with
  | zero => rfl
  | succ n ih => simp [readBytes, ih]

theorem readBytes_congr {s s' : Store} {ofs n : Nat}
    (h : ∀ i, i < n → s (ofs + i) = s' (ofs + i)) :
    readBytes s ofs n = readBytes s' ofs n := by
  induction n generalizing ofs with
  | zero => rfl
  | succ n ih =>
    have h0 := h 0 (by omega)
    simp only [Nat.add_zero] at h0
    simp only [readBytes, h0]
    congr 1
    refine ih fun i hi => ?_
    have := h (i + 1) (by omega)
    have e : ofs + (i + 1) = ofs + 1 + i := by omega
    rwa [e] at this

theorem readBytes_split (s : Store) (ofs a b : Nat) :
    readBytes s ofs (a + b) = readBytes s ofs a ++ readBytes s (ofs + a) b := by
  induction a generalizing ofs with
  | zero => simp [readBytes]
  | succ a ih =>
    have e1 : a + 1 + b = (a + b) + 1 := by omega
    rw [e1]
    simp only [readBytes, List.cons_append]
    rw [ih]
    have e2 : ofs + 1 + a = ofs + (a + 1) := by omega
    rw [e2]

theorem readBytes_const (s : Store) (ofs n c : Nat)
    (h : ∀ i, i < n → s (ofs + i) = c) :
    readBytes s ofs n = List.replicate n c := by
  induction n generalizing ofs with
  | zero => rfl
  | succ n ih =>
    have h0 := h 0 (by omega)
    simp only [Nat.add_zero] at h0
    simp only [readBytes, List.replicate, h0]
    congr 1
    refine ih _ fun i hi => ?_
    have := h (i + 1) (by omega)
    have e : ofs + (i + 1) = ofs + 1 + i := by omega
    rwa [e] at this

theorem readBytes_writeBytes (s : Store) (ofs : Nat) (data : List Nat) :
    readBytes (writeBytes s ofs data) ofs data.length = data := by
  induction data generalizing s ofs with
  | nil => rfl
  | cons d rest ih =>
    simp only [List.length_cons, readBytes]
    have hd : writeBytes s ofs (d :: rest) ofs = d := by
      rw [writeBytes_in s ofs (d :: rest) ofs (by omega) (by simp)]
      simp
    rw [hd]
    congr 1
    have hcongr : readBytes (writeBytes s ofs (d :: rest)) (ofs + 1) rest.length
        = readBytes (writeBytes s (ofs + 1) rest) (ofs + 1) rest.length := by
      refine readBytes_congr fun i hi => ?_
      rw [writeBytes_in s ofs (d :: rest) (ofs + 1 + i) (by omega)
        (by simp only [List.length_cons]; omega)]
      rw [writeBytes_in s (ofs + 1) rest (ofs + 1 + i) (by omega) (by omega)]
      have e1 : ofs + 1 + i - ofs = i + 1 := by omega
      have e2 : ofs + 1 + i - (ofs + 1) = i := by omega
      rw [e1, e2, List.getD_cons_succ]
    rw [hcongr, ih]

/-! ### Helper lemmas about cstrlen and the length codec -/

theorem cstrlen_cons (a : Nat) (l : List Nat) :
    cstrlen (a :: l) = if a = 0 then 0 else cstrlen l + 1 := rfl

theorem cstrlen_append_zero (P rest : List Nat) (hP : ∀ b ∈ P, b ≠ 0) :
    cstrlen (P ++ 0 :: rest) = P.length := by
  induction P with
  | nil => simp [cstrlen]
  | cons a P ih =>
    rw [List.cons_append, cstrlen_cons, if_neg (hP a (by simp)),
      ih fun b hb => hP b (by simp [hb])]
    simp

theorem cstrlen_le_of_getD_zero (P : List Nat) (j : Nat) (hj : j < P.length)
    (h0 : P.getD j 0 = 0) (rest : List Nat) : cstrlen (P ++ rest) ≤ j := by
  induction P generalizing j with
  | nil => simp at hj
  | cons a P ih =>
    by_cases ha : a = 0
    · simp [cstrlen_cons, ha]
    · cases j with
      | zero => simp only [List.getD_cons_zero] at h0; exact absurd h0 ha
      | succ j =>
        rw [List.cons_append, cstrlen_cons, if_neg ha]
        have := ih j (by simp only [List.length_cons] at hj; omega)
          (by simpa using h0)
        omega

theorem decodeInt4_encLen4 (n : Nat) (h : n < 2147483648) :
    decodeInt4 (encLen4 n) = (n : Int) := by
  simp only [decodeInt4, encLen4, List.getD_cons_zero, List.getD_cons_succ]
  split <;> omega

theorem getD_replicate_zero (n i : Nat) :
    (List.replicate n (0 : Nat)).getD i 0 = 0 := by
  induction n generalizing i with
  | zero => simp [List.getD]
  | succ n ih =>
    cases i with
    | zero => simp [List.replicate]
    | succ i => simp only [List.replicate, List.getD_cons_succ]; exact ih i

/-! ### Helper lemmas about the channel operations -/

theorem ready_iff (st : State) : ready st = true ↔ st.error = 0 ∧ st.good = true := by
  simp [ready]

theorem readSigned_coe (s : Store) (ofs n : Nat) :
    readSigned s ofs (n : Int) = readBytes s ofs n := by
  by_cases h : n = 0
  · subst h; rfl
  · simp only [readSigned]
    rw [if_neg (by omega), Int.toNat_natCast]

theorem byteToCtl_ctlToByte (c : fpio_ctlbyte)
    (h1 : c.bDataPresent < 2) (h2 : c.bEndOfData < 2) (h3 : c.bLengthPfx < 2)
    (h4 : c.bAborted < 2) (h5 : c.usID < 16) :
    byteToCtl (ctlToByte c) = c := by
  obtain ⟨dp, e, p, a, u⟩ := c
  simp only [ctlToByte, byteToCtl, fpio_ctlbyte.mk.injEq] at *
  refine ⟨?_, ?_, ?_, ?_, ?_⟩ <;> omega

/-- Evaluation of an unsynchronized send from a ready state: the
return value is the caller-supplied length (recorded before the
truncation), and the store becomes `sendStoreEffect`. -/
theorem send_st_eq (cfg : Config) (st : State) (data : List Nat)
    (h : ready st = true) (hs : cfg.synchronized = false) :
    send cfg st data none =
      { ret := data.length, st := { st with store := sendStoreEffect cfg st.store data } } := by
  have hg : st.good = true := ((ready_iff st).mp h).2
  simp only [send, sendStoreEffect, h, hg, hs, Bool.true_eq_false, Bool.false_eq_true,
    if_false]

/-- Evaluation of an unsynchronized receive from a ready state when the
binary-with-length-prefix path is not taken: the buffer is szData raw
bytes of the inbound region, the return value their strlen, and the
control byte is rewritten with bDataPresent cleared. -/
theorem receive_eq_noPfx (cfg : Config) (st : State) (szData : Nat)
    (h : ready st = true) (hs : cfg.synchronized = false)
    (hnp : ¬ (cfg.binary = true
      ∧ (byteToCtl (st.store (mkLayout cfg).ofsCtrlByteIn)).bLengthPfx = 1)) :
    receive cfg st szData =
      { ret := (cstrlen (readBytes st.store (mkLayout cfg).ofsInput szData) : Int),
        buf := readBytes st.store (mkLayout cfg).ofsInput szData,
        flags := byteToCtl (st.store (mkLayout cfg).ofsCtrlByteIn),
        st := { st with
          store := recvCtlWriteback st.store (mkLayout cfg).ofsCtrlByteIn } } := by
  have hg : st.good = true := ((ready_iff st).mp h).2
  simp only [receive, recvCtlWriteback, h, hg, hs, hnp, Bool.true_eq_false,
    Bool.false_eq_true, if_false, ite_false, readSigned_coe]
  norm_num

/-- Evaluation of an unsynchronized receive from a ready state in
binary mode with the length-prefix flag present in the stored control
byte: the 4 prefix bytes at ofsInput are decoded and clamped from
above to szInput, that count is passed as the payload read length at
ofsInput+4, and it is also the return value. -/
theorem receive_eq_pfx (cfg : Config) (st : State) (szData : Nat)
    (h : ready st = true) (hs : cfg.synchronized = false)
    (hb : cfg.binary = true)
    (hp : (byteToCtl (st.store (mkLayout cfg).ofsCtrlByteIn)).bLengthPfx = 1) :
    receive cfg st szData =
      { ret := recvReadLen (mkLayout cfg).szInput
          (readBytes st.store (mkLayout cfg).ofsInput 4),
        buf := readSigned st.store ((mkLayout cfg).ofsInput + 4)
          (recvReadLen (mkLayout cfg).szInput
            (readBytes st.store (mkLayout cfg).ofsInput 4)),
        flags := byteToCtl (st.store (mkLayout cfg).ofsCtrlByteIn),
        st := { st with
          store := recvCtlWriteback st.store (mkLayout cfg).ofsCtrlByteIn } } := by
  have hg : st.good = true := ((ready_iff st).mp h).2
  simp only [receive, recvCtlWriteback, h, hg, hs, hb, hp, Bool.true_eq_false,
    Bool.false_eq_true, if_false, true_and, ite_false]
  norm_num

/-! ### Claim C7 -/

/-- C7: whenever the channel's error field is non-zero, ready() is
false and every subsequent send, receive and reset call fails with
NotReady (code -4) without reading or writing any byte of the backing
store, until clear() resets the error state. -/
theorem C7_pending_error_blocks_operations (cfg : Config) (st : State)
    (h : st.error ≠ 0) :
    ready st = false
    ∧ (∀ data ctrl, (send cfg st data ctrl).ret = -4
        ∧ (send cfg st data ctrl).st.store = st.store)
    ∧ (∀ szData, (receive cfg st szData).ret = -4
        ∧ (receive cfg st szData).st.store = st.store)
    ∧ (reset cfg st).error = -4
    ∧ (reset cfg st).store = st.store
    ∧ (clear st).error = 0 := by
  have hbe : (st.error == 0) = false := by
    simp [h]
  have hready : ready st = false := by
    simp [ready, hbe]
  refine ⟨hready, ?_, ?_, ?_, ?_, rfl⟩
  · intro data ctrl
    simp [send, hready, setError]
  · intro szData
    simp [receive, hready, setError]
  · simp [reset, hready, setError]
  · simp [reset, hready, setError]

/-- Witness for C7 at a concrete stuck state (error code -7). -/
theorem C7_pending_error_blocks_operations_witness :
    ready { store := fun _ => 0, error := -7, good := true } = false
    ∧ (send (hypCfg false) { store := fun _ => 0, error := -7, good := true }
        [65] none).ret = -4
    ∧ (receive (hypCfg false) { store := fun _ => 0, error := -7, good := true }
        14335).ret = -4
    ∧ (reset (hypCfg false) { store := fun _ => 0, error := -7, good := true }).error = -4
    ∧ (clear { store := fun _ => 0, error := -7, good := true }).error = 0 := by
  have h := C7_pending_error_blocks_operations (hypCfg false)
    { store := fun _ => 0, error := -7, good := true } (by decide)
  exact ⟨h.1, (h.2.1 [65] none).1, (h.2.2.1 14335).1, h.2.2.2.1, h.2.2.2.2.2⟩

/-! ### Claim C10 -/

/-- C10: when the channel is ready, reset() writes exactly
szFloppy + 1 zero bytes starting at offset 0 (every byte of the
declared capacity plus one byte beyond it, so both data regions and
both control bytes are zeroed) and leaves all further bytes
untouched. -/
theorem C10_reset_zeroes_capacity_plus_one (cfg : Config) (st : State)
    (h : ready st = true) :
    (∀ i, i ≤ cfg.szFloppy → (reset cfg st).store i = 0)
    ∧ (∀ i, cfg.szFloppy < i → (reset cfg st).store i = st.store i) := by
  have hl : (List.replicate (cfg.szFloppy + 1) (0 : Nat)).length = cfg.szFloppy + 1 :=
    List.length_replicate _ _
  have hr : reset cfg st =
      { st with store := writeBytes st.store 0 (List.replicate (cfg.szFloppy + 1) 0) } := by
    simp [reset, h]
  rw [hr]
  dsimp only
  constructor
  · intro i hi
    rw [writeBytes_in st.store 0 _ i (by omega) (by rw [hl]; omega)]
    exact getD_replicate_zero _ _
  · intro i hi
    rw [writeBytes_out st.store 0 _ i (by rw [hl]; omega)]

/-- Witness for C10: after reset of the dirty state, offsets 28672 and
28670 read zero while offset 28673 keeps its old value 9. -/
theorem C10_reset_zeroes_capacity_plus_one_witness :
    (reset (hypCfg false) stDirty).store 28672 = 0
    ∧ (reset (hypCfg false) stDirty).store 28670 = 0
    ∧ (reset (hypCfg false) stDirty).store 28673 = 9 := by
  have h := C10_reset_zeroes_capacity_plus_one (hypCfg false) stDirty (by decide)
  refine ⟨h.1 28672 (by decide), h.1 28670 (by decide), ?_⟩
  rw [h.2 28673 (by decide)]
  rfl

/-! ### Claim C9 -/

/-- C9: in binary mode with a length-prefixed frame, receive clamps a
decoded 4-byte length greater than szInput down to szInput before
reading the payload, but applies no lower bound: a prefix decoding to
a negative value is passed unmodified as the payload read length (it
becomes the return value, and the signed-count read extracts
nothing). -/
theorem C9_negative_length_not_clamped (cfg : Config) (st : State) (szData : Nat)
    (h : ready st = true) (hs : cfg.synchronized = false) (hb : cfg.binary = true)
    (hp : (byteToCtl (st.store (mkLayout cfg).ofsCtrlByteIn)).bLengthPfx = 1) :
    (decodeInt4 (readBytes st.store (mkLayout cfg).ofsInput 4) > ((mkLayout cfg).szInput : Int) →
      (receive cfg st szData).ret = ((mkLayout cfg).szInput : Int))
    ∧ (decodeInt4 (readBytes st.store (mkLayout cfg).ofsInput 4) < 0 →
      (receive cfg st szData).ret = decodeInt4 (readBytes st.store (mkLayout cfg).ofsInput 4)
      ∧ (receive cfg st szData).buf = []) := by
  rw [receive_eq_pfx cfg st szData h hs hb hp]
  dsimp only
  constructor
  · intro hgt
    simp only [recvReadLen]
    rw [if_pos hgt]
  · intro hlt
    have hr : recvReadLen (mkLayout cfg).szInput
        (readBytes st.store (mkLayout cfg).ofsInput 4) =
        decodeInt4 (readBytes st.store (mkLayout cfg).ofsInput 4) := by
      simp only [recvReadLen]
      rw [if_neg (by omega)]
    rw [hr]
    refine ⟨rfl, ?_⟩
    simp only [readSigned]
    rw [if_pos (by omega)]

/-- Witness for C9: a client-mode binary channel whose inbound prefix
decodes to -1 yields return value -1 and an empty extraction; one
whose prefix decodes to 2147483647 is clamped to szInput = 14332. -/
theorem C9_negative_length_not_clamped_witness :
    decodeInt4 (readBytes stNegPfx.store 0 4) = -1
    ∧ (receive (cliCfg true) stNegPfx 14332).ret =
        decodeInt4 (readBytes stNegPfx.store 0 4)
    ∧ (receive (cliCfg true) stNegPfx 14332).buf = []
    ∧ (receive (cliCfg true) stBigPfx 14332).ret = 14332 := by
  have h1 := (C9_negative_length_not_clamped (cliCfg true) stNegPfx 14332
    (by decide) (by decide) (by decide) (by decide)).2 (by decide)
  have h2 := (C9_negative_length_not_clamped (cliCfg true) stBigPfx 14332
    (by decide) (by decide) (by decide) (by decide)).1 (by decide)
  exact ⟨by decide, h1.1, h1.2, h2⟩

/-! ### Claim C6 -/

theorem waitForSync_cons (tExpired timeout state mask t : Nat) (g : Bool) (b : Nat)
    (rest : List (Nat × Bool × Nat)) :
    waitForSync tExpired timeout state mask ((t, g, b) :: rest) =
      if timeout = 0 ∨ t ≤ tExpired then
        if g = false then some (-1)
        else if b.land mask = state then some 0
        else waitForSync tExpired timeout state mask rest
      else some (-2) := rfl

/-- C6: the poll loop of waitForSync returns success (0) as soon as an
observed byte satisfies (byte AND mask) == state; with timeout 0 it
never returns the Timeout error (it polls forever); with timeout
T > 0 it returns the Timeout error (-2) exactly when a poll happens
after the deadline t0 + T with no earlier match, and never while all
observed clock values are still within the deadline (so never earlier
than T seconds after the call). -/
theorem C6_waitForSync_poll_contract :
    (∀ (tE timeout state mask : Nat) (pre : List (Nat × Bool × Nat)) (t b : Nat)
        (rest : List (Nat × Bool × Nat)),
        (∀ e ∈ pre, e.2.1 = true ∧ ¬ (e.2.2).land mask = state ∧ (timeout = 0 ∨ e.1 ≤ tE)) →
        (timeout = 0 ∨ t ≤ tE) → b.land mask = state →
        waitForSync tE timeout state mask (pre ++ (t, true, b) :: rest) = some 0)
    ∧ (∀ (tE state mask : Nat) (trace : List (Nat × Bool × Nat)),
        waitForSync tE 0 state mask trace ≠ some (-2))
    ∧ (∀ (t0 T state mask : Nat) (trace : List (Nat × Bool × Nat)), 0 < T →
        (∀ e ∈ trace, e.1 ≤ t0 + T) →
        waitForSync (t0 + T) T state mask trace ≠ some (-2))
    ∧ (∀ (t0 T state mask : Nat) (pre : List (Nat × Bool × Nat)) (t : Nat) (g : Bool)
        (b : Nat) (rest : List (Nat × Bool × Nat)), 0 < T →
        (∀ e ∈ pre, e.2.1 = true ∧ ¬ (e.2.2).land mask = state ∧ e.1 ≤ t0 + T) →
        t0 + T < t →
        waitForSync (t0 + T) T state mask (pre ++ (t, g, b) :: rest) = some (-2)) := by
  refine ⟨?_, ?_, ?_, ?_⟩
  · intro tE timeout state mask pre
    induction pre with
    | nil =>
      intro t b rest _ ht hb
      rw [List.nil_append, waitForSync_cons, if_pos ht]
      simp [hb]
    | cons e pre ih =>
      intro t b rest hpre ht hb
      obtain ⟨te, ge, be⟩ := e
      obtain ⟨hg, hm, hd⟩ := hpre (te, ge, be) (by simp)
      have hg' : ge = true := hg
      have hm' : ¬ be.land mask = state := hm
      have hd' : timeout = 0 ∨ te ≤ tE := hd
      rw [List.cons_append, waitForSync_cons, if_pos hd', hg']
      simp only [Bool.true_eq_false, if_false]
      rw [if_neg hm']
      exact ih t b rest (fun e he => hpre e (by simp [he])) ht hb
  · intro tE state mask trace
    induction trace with
    | nil => simp [waitForSync]
    | cons e rest ih =>
      obtain ⟨te, ge, be⟩ := e
      rw [waitForSync_cons, if_pos (Or.inl rfl)]
      by_cases hg : ge = false
      · simp [hg]
      · rw [if_neg hg]
        by_cases hm : be.land mask = state
        · simp [hm]
        · rw [if_neg hm]; exact ih
  · intro t0 T state mask trace hT htrace
    induction trace with
    | nil => simp [waitForSync]
    | cons e rest ih =>
      obtain ⟨te, ge, be⟩ := e
      rw [waitForSync_cons, if_pos (Or.inr (htrace (te, ge, be) (by simp)))]
      by_cases hg : ge = false
      · simp [hg]
      · rw [if_neg hg]
        by_cases hm : be.land mask = state
        · simp [hm]
        · rw [if_neg hm]
          exact ih fun e he => htrace e (by simp [he])
  · intro t0 T state mask pre
    induction pre with
    | nil =>
      intro t g b rest hT _ ht
      rw [List.nil_append, waitForSync_cons, if_neg (by omega)]
    | cons e pre ih =>
      intro t g b rest hT hpre ht
      obtain ⟨te, ge, be⟩ := e
      obtain ⟨hg, hm, hd⟩ := hpre (te, ge, be) (by simp)
      have hg' : ge = true := hg
      have hm' : ¬ be.land mask = state := hm
      have hd' : te ≤ t0 + T := hd
      rw [List.cons_append, waitForSync_cons, if_pos (Or.inr hd'), hg']
      simp only [Bool.true_eq_false, if_false]
      rw [if_neg hm']
      exact ih t g b rest hT (fun e he => hpre e (by simp [he])) ht

/-- Witness for C6 at concrete traces: a match inside the deadline
succeeds even after failed polls; with timeout 0 an unchanged byte is
never reported as Timeout; with timeout 5 and deadline 3 + 5 = 8, a
trace polling only at times up to 8 is not yet a Timeout, while the
poll at time 9 after two failed polls returns -2. -/
theorem C6_waitForSync_poll_contract_witness :
    waitForSync 10 5 1 1 [(6, true, 0), (7, true, 3)] = some 0
    ∧ waitForSync 3 0 1 1 [(100, true, 0), (200, true, 2)] ≠ some (-2)
    ∧ waitForSync 8 5 1 1 [(4, true, 0), (8, true, 0)] ≠ some (-2)
    ∧ waitForSync 8 5 1 1 [(4, true, 0), (8, true, 0), (9, true, 0)] = some (-2) := by
  refine ⟨?_, ?_, ?_, ?_⟩
  · exact C6_waitForSync_poll_contract.1 10 5 1 1 [(6, true, 0)] 7 3 []
      (by decide) (by decide) (by decide)
  · exact C6_waitForSync_poll_contract.2.1 3 1 1 [(100, true, 0), (200, true, 2)]
  · exact C6_waitForSync_poll_contract.2.2.1 3 5 1 1 [(4, true, 0), (8, true, 0)]
      (by decide) (by decide)
  · exact C6_waitForSync_poll_contract.2.2.2 3 5 1 1 [(4, true, 0), (8, true, 0)] 9 true 0 []
      (by decide) (by decide) (by decide)

/-! ### Claims C2, C3, C4, C5 -/

theorem readBytes_writeBytes_disjoint (s : Store) (ofs : Nat) (data : List Nat)
    (ofs' n : Nat) (h : ofs' + n ≤ ofs ∨ ofs + data.length ≤ ofs') :
    readBytes (writeBytes s ofs data) ofs' n = readBytes s ofs' n :=
  readBytes_congr fun i hi => writeBytes_out s ofs data (ofs' + i) (by omega)

/-- Reading back the 4 prefix bytes written by a binary-mode send: they
are the little-endian encoding of the truncated length. -/
theorem sendStoreEffect_readPrefix (cfg : Config) (s : Store) (data : List Nat)
    (hb : cfg.binary = true)
    (hc : (mkLayout cfg).ofsOutput + 4 ≤ (mkLayout cfg).ofsCtrlByteOut) :
    readBytes (sendStoreEffect cfg s data) (mkLayout cfg).ofsOutput 4 =
      encLen4 (sendTruncLen (mkLayout cfg).szOutput data.length) := by
  simp only [sendStoreEffect, hb, if_true]
  rw [readBytes_writeBytes_disjoint _ _ _ _ _ (Or.inl (by simpa using hc))]
  rw [readBytes_writeBytes_disjoint _ _ _ _ _ (Or.inl (by omega))]
  have h4 : (encLen4 (sendTruncLen (mkLayout cfg).szOutput data.length)).length = 4 := rfl
  rw [← h4]
  exact readBytes_writeBytes s (mkLayout cfg).ofsOutput _

/-- C2 (code_bug evaluation): FloppyIO::send records bytesSent from the
caller-supplied szData before the truncation and returns that, so for
a 14340-byte payload on a Text-mode channel, whose truncation limit is
szOutput - 1 = 14334, the call returns 14340, not the truncated length
14334 the specification requires. -/
theorem C2_send_returns_untruncated_length :
    sendTruncLen (mkLayout (hypCfg false)).szOutput
      (List.replicate 14340 (65 : Nat)).length = 14334
    ∧ (send (hypCfg false) freshState (List.replicate 14340 (65 : Nat)) none).ret = 14340
    ∧ (14340 : Int) ≠ 14334 := by
  refine ⟨?_, ?_, by decide⟩
  · rw [List.length_replicate]
    decide
  · rw [send_st_eq (hypCfg false) freshState _ (by decide) rfl]
    dsimp only
    rw [List.length_replicate]
    norm_num

/-- Counterexample to C3 as stated: in Binary mode the outbound region
size is 14332, and a payload of exactly that length is truncated by
send to 14331 = outboundSize - 1 bytes, not to outboundSize bytes: the
length prefix that send writes into the store decodes to 14331. -/
theorem C3_counterexample_binary_truncates_to_size_minus_one :
    (mkLayout (hypCfg true)).szOutput = 14332
    ∧ sendTruncLen (mkLayout (hypCfg true)).szOutput
        (List.replicate 14332 (9 : Nat)).length = 14331
    ∧ decodeInt4 (readBytes
        (send (hypCfg true) freshState (List.replicate 14332 (9 : Nat)) none).st.store
        (mkLayout (hypCfg true)).ofsOutput 4) = 14331
    ∧ (14331 : Nat) ≠ 14332 := by
  refine ⟨rfl, ?_, ?_, by decide⟩
  · rw [List.length_replicate]
    decide
  · rw [send_st_eq (hypCfg true) freshState _ (by decide) rfl]
    dsimp only
    rw [sendStoreEffect_readPrefix (hypCfg true) freshState.store _ rfl (by decide)]
    rw [List.length_replicate]
    decide

/-- C3 (amended): for every payload at least as long as the outbound
region size, single-frame send truncates it silently to exactly
outboundSize - 1 bytes in Text mode and in Binary mode alike: the
write length is szOutput - 1, no error is raised (the error field is
unchanged and the returned value is the non-negative caller length). -/
theorem C3_amended_truncates_to_size_minus_one_both_modes (cfg : Config) (st : State)
    (data : List Nat) (h : ready st = true) (hs : cfg.synchronized = false)
    (hsz : 1 ≤ (mkLayout cfg).szOutput)
    (hlen : (mkLayout cfg).szOutput ≤ data.length) :
    sendTruncLen (mkLayout cfg).szOutput data.length = (mkLayout cfg).szOutput - 1
    ∧ (send cfg st data none).ret = data.length
    ∧ (send cfg st data none).st.error = st.error := by
  refine ⟨?_, ?_, ?_⟩
  · simp only [sendTruncLen]
    rw [if_pos (by omega)]
  · rw [send_st_eq cfg st data h hs]
  · rw [send_st_eq cfg st data h hs]

/-- Witness for the amended C3 in both modes at length-14335 payloads. -/
theorem C3_amended_truncates_witness :
    sendTruncLen (mkLayout (hypCfg false)).szOutput
      (List.replicate 14335 (7 : Nat)).length = 14334
    ∧ (send (hypCfg false) freshState (List.replicate 14335 (7 : Nat)) none).st.error = 0
    ∧ sendTruncLen (mkLayout (hypCfg true)).szOutput
        (List.replicate 14335 (7 : Nat)).length = 14331
    ∧ (send (hypCfg true) freshState (List.replicate 14335 (7 : Nat)) none).st.error = 0 := by
  have ht := C3_amended_truncates_to_size_minus_one_both_modes (hypCfg false) freshState
    (List.replicate 14335 7) (by decide) rfl (by decide)
    (by rw [List.length_replicate]; decide)
  have hb := C3_amended_truncates_to_size_minus_one_both_modes (hypCfg true) freshState
    (List.replicate 14335 7) (by decide) rfl (by decide)
    (by rw [List.length_replicate]; decide)
  exact ⟨ht.1.trans (by decide), ht.2.2.trans rfl, hb.1.trans (by decide),
    hb.2.2.trans rfl⟩

/-- C4 (code_bug evaluation): in Text mode send writes only the payload
bytes and never the trailing zero terminator the design relies on
(the szPad variable of the source is dead), so a leftover nonzero
byte at the offset immediately following the payload survives the
send: after sending the 2-byte payload 65 66, the byte at offset 2 is
still 1, where the claim requires it to be 0. -/
theorem C4_no_trailing_zero_written :
    (send (hypCfg false) stLeftover [65, 66] none).st.store 2 = 1
    ∧ (1 : Nat) ≠ 0 := by
  refine ⟨?_, by decide⟩
  rw [send_st_eq (hypCfg false) stLeftover [65, 66] (by decide) rfl]
  decide

/-- Counterexample to C5 as stated: receiving a frame whose control
byte is 3 (bDataPresent = 1, bEndOfData = 1) rewrites the control
byte as 2: bEndOfData is preserved, not cleared to zero as the claim
requires of every field other than bDataPresent. -/
theorem C5_counterexample_other_fields_not_cleared :
    (receive (cliCfg false) stCtl3 14335).st.store 28670 = 2
    ∧ (byteToCtl 2).bEndOfData = 1
    ∧ (2 : Nat) ≠ 0 := by
  refine ⟨?_, by decide, by decide⟩
  rw [receive_eq_noPfx (cliCfg false) stCtl3 14335 (by decide) rfl
    (fun hc => absurd hc.1 (by decide))]
  decide

/-- C5 (amended): after every successful unsynchronized receive, the
control byte at ofsCtrlByteIn has bDataPresent = 0 while every other
field (endOfData, lengthPrefixUsed, aborted, sequenceId) is preserved
exactly as the sender wrote it, and the sender's flags are exposed
unmodified to the caller through the ctrlByte out-parameter before
the write-back. -/
theorem C5_amended_dataPresent_cleared_rest_preserved (cfg : Config) (st : State)
    (szData : Nat) (h : ready st = true) (hs : cfg.synchronized = false) :
    (receive cfg st szData).flags = byteToCtl (st.store (mkLayout cfg).ofsCtrlByteIn)
    ∧ byteToCtl ((receive cfg st szData).st.store (mkLayout cfg).ofsCtrlByteIn)
      = { byteToCtl (st.store (mkLayout cfg).ofsCtrlByteIn) with bDataPresent := 0 } := by
  have key : (receive cfg st szData).flags = byteToCtl (st.store (mkLayout cfg).ofsCtrlByteIn)
      ∧ (receive cfg st szData).st.store =
        recvCtlWriteback st.store (mkLayout cfg).ofsCtrlByteIn := by
    by_cases hp : cfg.binary = true
      ∧ (byteToCtl (st.store (mkLayout cfg).ofsCtrlByteIn)).bLengthPfx = 1
    · rw [receive_eq_pfx cfg st szData h hs hp.1 hp.2]
      exact ⟨rfl, rfl⟩
    · rw [receive_eq_noPfx cfg st szData h hs hp]
      exact ⟨rfl, rfl⟩
  refine ⟨key.1, ?_⟩
  rw [key.2]
  simp only [recvCtlWriteback]
  rw [writeBytes_in _ _ _ _ (by omega) (by simp)]
  simp only [Nat.sub_self, List.getD_cons_zero]
  refine byteToCtl_ctlToByte _ ?_ ?_ ?_ ?_ ?_ <;> dsimp only [byteToCtl] <;> omega

/-- Witness for the amended C5 at the concrete control byte 3. -/
theorem C5_amended_witness :
    (receive (cliCfg false) stCtl3 14335).flags = byteToCtl 3
    ∧ byteToCtl ((receive (cliCfg false) stCtl3 14335).st.store 28670)
      = { byteToCtl 3 with bDataPresent := 0 } := by
  have h := C5_amended_dataPresent_cleared_rest_preserved (cliCfg false) stCtl3 14335
    (by decide) rfl
  exact ⟨h.1, h.2⟩

/-! ### Claim C8 (corrected) -/

/-- The endOfData flags of the frames emitted over a source of length
k * R + r with 0 < r < R, where R is the per-frame read request: k
full frames with the flag clear, then one short frame with it set. -/
theorem sendStreamFrames_eod (R : Nat) :
    ∀ (k r : Nat) (src : List Nat), 0 < r → r < R → src.length = k * R + r →
    (sendStreamFrames R src).map (fun f => f.2.bEndOfData) = List.replicate k 0 ++ [1] := by
  intro k
  induction k with
  | zero =>
    intro r src hr hrR hlen
    rw [sendStreamFrames, dif_neg (by omega)]
    simp
  | succ k ih =>
    intro r src hr hrR hlen
    rw [sendStreamFrames, dif_pos ⟨by omega, by rw [hlen]; calc
      R ≤ (k + 1) * R := Nat.le_mul_of_pos_left R (by omega)
      _ ≤ (k + 1) * R + r := by omega⟩]
    simp only [List.map_cons]
    rw [ih r (src.drop R) hr hrR (by rw [List.length_drop, hlen]; ring_nf; omega)]
    rfl

/-- Counterexample to C8 as stated: with Text-mode outboundSize =
14335, a source of 14334 bytes decomposes as k = 0, r = 14334 with
0 < r < outboundSize, so the claim predicts 0 + 1 = 1 frame; yet
sendStream emits 2 frames, because the per-frame read request is
szOutput - 1 = 14334 bytes (floppyIO.cpp line 507): the first read
fills completely without raising eof, and a second, empty,
end-of-data frame follows. -/
theorem C8_counterexample_full_chunk_costs_extra_frame :
    (List.replicate 14334 (7 : Nat)).length
      = 0 * (mkLayout (hypCfg false)).szOutput + 14334
    ∧ 0 < 14334 ∧ 14334 < (mkLayout (hypCfg false)).szOutput
    ∧ (sendStream (hypCfg false) (List.replicate 14334 (7 : Nat))).length = 2
    ∧ (2 : Nat) ≠ 0 + 1 := by
  refine ⟨by rw [List.length_replicate]; decide, by decide, by decide, ?_, by decide⟩
  have e1 : sendStream (hypCfg false) (List.replicate 14334 (7 : Nat)) =
      ((List.replicate 14334 (7 : Nat)).take 14334, byteToCtl 0) ::
        sendStreamFrames 14334 ((List.replicate 14334 (7 : Nat)).drop 14334) := by
    show sendStreamFrames 14334 (List.replicate 14334 (7 : Nat)) = _
    rw [sendStreamFrames, dif_pos ⟨by decide, by rw [List.length_replicate]⟩]
  have e2 : (List.replicate 14334 (7 : Nat)).drop 14334 = [] := by
    rw [List.drop_eq_nil_of_le (by rw [List.length_replicate])]
  have e3 : sendStreamFrames 14334 ([] : List Nat) =
      [([], { byteToCtl 0 with bEndOfData := 1 })] := by
    rw [sendStreamFrames, dif_neg (by simp)]
  rw [e1, e2, e3]
  rfl

/-- C8 (amended): send(istream*) reads its source in chunks of
outboundSize - 1 bytes per frame, so for every source of total size
k * (outboundSize - 1) + r with 0 < r < outboundSize - 1, it emits
exactly k + 1 frames through the single-frame send, and only the
last emitted frame carries endOfData = 1. -/
theorem C8_amended_chunks_of_szOutput_minus_one (cfg : Config) (k r : Nat)
    (src : List Nat) (hr : 0 < r) (hrR : r < (mkLayout cfg).szOutput - 1)
    (hlen : src.length = k * ((mkLayout cfg).szOutput - 1) + r) :
    (sendStream cfg src).length = k + 1
    ∧ (sendStream cfg src).map (fun f => f.2.bEndOfData)
      = List.replicate k 0 ++ [1] := by
  have hmap := sendStreamFrames_eod ((mkLayout cfg).szOutput - 1) k r src hr hrR hlen
  refine ⟨?_, hmap⟩
  have hlenmap := congrArg List.length hmap
  simpa [sendStream] using hlenmap

/-- Witness for the amended C8: a Text-mode source of
14339 = 1 * 14334 + 5 bytes yields 2 frames with endOfData flags
0 then 1. -/
theorem C8_amended_chunks_witness :
    (sendStream (hypCfg false) (List.replicate 14339 (3 : Nat))).length = 2
    ∧ (sendStream (hypCfg false) (List.replicate 14339 (3 : Nat))).map
        (fun f => f.2.bEndOfData) = List.replicate 1 0 ++ [1] := by
  have h := C8_amended_chunks_of_szOutput_minus_one (hypCfg false) 1 5
    (List.replicate 14339 3) (by decide) (by decide)
    (by rw [List.length_replicate]; decide)
  exact ⟨h.1, h.2⟩

/-! ### Claim C1 -/

/-- After a Text-mode hypervisor send of P over a zeroed image, the
client's inbound region [0, 14335) holds P followed by zeros. -/
theorem text_send_region_read (P : List Nat) (hlen : P.length < 14335) :
    readBytes (sendStoreEffect (hypCfg false) freshState.store P) 0 14335
      = P ++ List.replicate (14335 - P.length) 0 := by
  have htr : sendTruncLen 14335 P.length = P.length := by
    simp only [sendTruncLen]
    rw [if_neg (by omega)]
  have hse : sendStoreEffect (hypCfg false) freshState.store P =
      writeBytes (writeBytes freshState.store 0 (P.take (sendTruncLen 14335 P.length)))
        28670 [1] := rfl
  rw [hse, htr, List.take_length]
  rw [readBytes_writeBytes_disjoint _ _ _ _ _ (Or.inl (by omega))]
  have hsplit : readBytes (writeBytes freshState.store 0 P) 0 14335
      = readBytes (writeBytes freshState.store 0 P) 0 P.length
        ++ readBytes (writeBytes freshState.store 0 P) (0 + P.length) (14335 - P.length) := by
    rw [← readBytes_split]
    congr 1
    omega
  rw [hsplit, readBytes_writeBytes, Nat.zero_add]
  congr 1
  refine readBytes_const _ _ _ _ fun i hi => ?_
  rw [writeBytes_out _ _ _ _ (by omega)]
  rfl

/-- Text-mode loopback evaluation: one hypervisor send of P over a
zeroed image followed by one client receive returns the strlen of the
zero-padded inbound region and that prefix of it. -/
theorem roundTrip_text_eval (P : List Nat) (hlen : P.length < 14335) :
    roundTrip false P =
      ((cstrlen (P ++ List.replicate (14335 - P.length) 0) : Int),
        (P ++ List.replicate (14335 - P.length) 0).take
          (cstrlen (P ++ List.replicate (14335 - P.length) 0))) := by
  have hsend := send_st_eq (hypCfg false) freshState P rfl rfl
  unfold roundTrip
  rw [hsend]
  simp only [receiveString]
  rw [receive_eq_noPfx (cliCfg false) _ _ (by rfl) rfl (fun hc => absurd hc.1 (by decide))]
  dsimp only
  rw [show (mkLayout (cliCfg false)).ofsInput = 0 from rfl,
    show (mkLayout (cliCfg false)).szInput = 14335 from rfl]
  rw [text_send_region_read P hlen]
  rw [if_neg (by exact Int.not_lt.mpr (Int.natCast_nonneg _))]
  rw [Int.toNat_natCast]

/-- Binary-mode loopback evaluation: one hypervisor send of P over a
zeroed image followed by one client receive returns P exactly, with
its length, embedded zero bytes included. -/
theorem roundTrip_binary_eval (P : List Nat) (hlen : P.length < 14332) :
    roundTrip true P = ((P.length : Int), P) := by
  have htr : sendTruncLen 14332 P.length = P.length := by
    simp only [sendTruncLen]
    rw [if_neg (by omega)]
  have hse : sendStoreEffect (hypCfg true) freshState.store P =
      writeBytes (writeBytes (writeBytes freshState.store 0
        (encLen4 (sendTruncLen 14332 P.length))) 4 (P.take (sendTruncLen 14332 P.length)))
        28670 [5] := rfl
  have hsend := send_st_eq (hypCfg true) freshState P rfl rfl
  have hctl : sendStoreEffect (hypCfg true) freshState.store P 28670 = 5 := by
    rw [hse, writeBytes_in _ _ _ _ (le_refl 28670) (by decide)]
    rfl
  have hpfx : readBytes (sendStoreEffect (hypCfg true) freshState.store P) 0 4
      = encLen4 P.length := by
    rw [hse, htr, List.take_length]
    rw [readBytes_writeBytes_disjoint _ _ _ _ _ (Or.inl (by omega))]
    rw [readBytes_writeBytes_disjoint _ _ _ _ _ (Or.inl (by omega))]
    have h4 : (encLen4 P.length).length = 4 := rfl
    rw [← h4, readBytes_writeBytes]
  have hdec : decodeInt4 (encLen4 P.length) = (P.length : Int) :=
    decodeInt4_encLen4 _ (by omega)
  have hrrl : recvReadLen 14332 (encLen4 P.length) = (P.length : Int) := by
    simp only [recvReadLen, hdec]
    rw [if_neg (by omega)]
  have hbuf : readBytes (sendStoreEffect (hypCfg true) freshState.store P) 4 P.length
      = P := by
    rw [hse, htr, List.take_length]
    rw [readBytes_writeBytes_disjoint _ _ _ _ _ (Or.inl (by omega))]
    exact readBytes_writeBytes _ 4 P
  unfold roundTrip
  rw [hsend]
  simp only [receiveString]
  rw [receive_eq_pfx (cliCfg true) _ _ (by rfl) rfl rfl
    (by dsimp only
        rw [show (mkLayout (cliCfg true)).ofsCtrlByteIn = 28670 from rfl, hctl]
        decide)]
  dsimp only
  rw [show (mkLayout (cliCfg true)).ofsInput = 0 from rfl,
    show (mkLayout (cliCfg true)).szInput = 14332 from rfl]
  rw [hpfx, hrrl, readSigned_coe]
  rw [show (0 + 4 : Nat) = 4 from rfl, hbuf]
  rw [if_neg (by exact Int.not_lt.mpr (Int.natCast_nonneg _))]
  rw [Int.toNat_natCast, List.take_length]

/-- C1: on a loopback pair (hypervisor sender, client receiver) over
one freshly zeroed backing store, a send of P with len(P) under the
outbound size followed by one receive returns exactly P with length
len(P): in Binary mode for every byte payload, embedded zeros
included; in Text mode exactly when P has no zero byte, and for a P
with a zero byte the Text-mode round trip does not return P. -/
theorem C1_loopback_round_trip :
    (∀ P : List Nat, P.length < (mkLayout (hypCfg false)).szOutput →
        (∀ b ∈ P, b < 256) → (∀ b ∈ P, b ≠ 0) →
        roundTrip false P = ((P.length : Int), P))
    ∧ (∀ P : List Nat, P.length < (mkLayout (hypCfg true)).szOutput →
        (∀ b ∈ P, b < 256) →
        roundTrip true P = ((P.length : Int), P))
    ∧ (∀ (P : List Nat) (j : Nat), P.length < (mkLayout (hypCfg false)).szOutput →
        j < P.length → P.getD j 0 = 0 →
        (roundTrip false P).2 ≠ P) := by
  refine ⟨?_, ?_, ?_⟩
  · intro P hlen _ hz
    have hlen' : P.length < 14335 := hlen
    rw [roundTrip_text_eval P hlen']
    obtain ⟨m, hm⟩ : ∃ m, 14335 - P.length = m + 1 := ⟨14335 - P.length - 1, by omega⟩
    have hrep : List.replicate (14335 - P.length) (0 : Nat)
        = 0 :: List.replicate m 0 := by
      rw [hm, List.replicate_succ]
    have hc : cstrlen (P ++ List.replicate (14335 - P.length) 0) = P.length := by
      rw [hrep]
      exact cstrlen_append_zero P _ hz
    rw [hc, List.take_left]
  · intro P hlen _
    exact roundTrip_binary_eval P hlen
  · intro P j hlen hj h0
    have hlen' : P.length < 14335 := hlen
    rw [roundTrip_text_eval P hlen']
    have hcle : cstrlen (P ++ List.replicate (14335 - P.length) 0) ≤ j :=
      cstrlen_le_of_getD_zero P j hj h0 _
    intro heq
    have hl := congrArg List.length heq
    rw [List.length_take, List.length_append, List.length_replicate] at hl
    omega

/-- Witness for C1: the Text-mode round trip of the zero-free payload
104 105 returns it with length 2; the Binary-mode round trip of
104 0 105 (an embedded zero byte) returns it with length 3; the
Text-mode round trip of 104 0 105 does not return that payload. -/
theorem C1_loopback_round_trip_witness :
    roundTrip false [104, 105] = (2, [104, 105])
    ∧ roundTrip true [104, 0, 105] = (3, [104, 0, 105])
    ∧ (roundTrip false [104, 0, 105]).2 ≠ [104, 0, 105] := by
  refine ⟨?_, ?_, ?_⟩
  · exact C1_loopback_round_trip.1 [104, 105] (by decide) (by decide) (by decide)
  · exact C1_loopback_round_trip.2.1 [104, 0, 105] (by decide) (by decide)
  · exact C1_loopback_round_trip.2.2 [104, 0, 105] 1 (by decide) (by decide) (by decide)

end Floppy
